import Mathlib

set_option maxRecDepth 100000

/-!
Verification development for the manga-pipeline repository
(`src/manga-pipeline.py`).

The Python program is sequential glue: it discovers chapter directories,
sorts them with `chapter_sort_key`, partitions them into contiguous batches,
names each batch folder from numerals re-extracted from the first and last
chapter names, and drives two external processes with asymmetric failure
policies.  This file shallowly embeds those parts:

* the regular expression `c(\d+(?:\.\d+)?)` (with `re.IGNORECASE`), both in
  `re.match` form (anchored, `matchAt`) and `re.search` form (leftmost
  occurrence, `searchAux`);
* CPython's `int(float(s))` on the matched numeral.  `float` rounds the
  decimal literal to the nearest IEEE-754 binary64 value (ties to even) and
  overflows to infinity, on which `int` raises `OverflowError`; the code at
  `chapter_sort_key` catches only `ValueError`, so that overflow escapes.
  The rounding is modelled exactly over rationals `n / 10^k`
  (`floatNorm` / `pyFloatTrunc`); subnormal underflow is not distinguished
  because every value below the normal range truncates to `0` either way,
  and `\d` is modelled as the ASCII digits, which covers every input
  considered here.  A result of `none` models an uncaught Python exception;
  `some k` models an ordinary return;
* the batching `while` loop (lines 228-254) as `chunkLoop`/`batchChunks`,
  and the batch-folder naming (lines 235-243) as `batchRangeName`;
* `run_command` (lines 32-47), the pre-run cleanup confirmation
  (lines 144-163), the per-batch conversion loop (lines 269-312) and the
  final cleanup, as a state-free pipeline function `pipelineRun` over an
  environment describing the outside world (process results, directory
  states, user input).
-/

/-- One step of the regex `c(\d+(?:\.\d+)?)` applied at a fixed position
(CPython `re.match` at that position, `re.IGNORECASE`): an optional-case `c`,
then a maximal nonempty run of digits, then, if a dot followed by at least
one digit comes next, the dot and a maximal run of digits.  Returns the
characters of capture group 1. -/
def matchAt : List Char → Option (List Char)
  | [] => none
  | c :: rest =>
    if c = 'c' ∨ c = 'C' then
      match rest.takeWhile (fun d => d.isDigit) with
      | [] => none
      | ds =>
        match rest.drop (rest.takeWhile (fun d => d.isDigit)).length with
        | '.' :: rest2 =>
          match rest2.takeWhile (fun d => d.isDigit) with
          | [] => some ds
          | fs => some (ds ++ '.' :: fs)
        | _ => some ds
    else none

/-- CPython `re.search`: try `matchAt` at every position, leftmost success
wins. -/
def searchAux : List Char → Option (List Char)
  | [] => none
  | c :: rest =>
    match matchAt (c :: rest) with
    | some g => some g
    | none => searchAux rest

/-- `re.search(r"c(\d+(?:\.\d+)?)", s, re.I)` returning group 1, as used at
lines 235-240 of the source. -/
def searchNum (s : String) : Option String :=
  (searchAux s.data).map String.mk

/-- Value of a digit string as a natural number (the digits are ASCII). -/
def natOfDigits (ds : List Char) : ℕ :=
  ds.foldl (fun acc d => 10 * acc + (d.toNat - 48)) 0

/-- Split a captured numeral `\d+(\.\d+)?` into numerator and denominator:
the numeral denotes `n / d` with `d` the power of ten given by the length of
the fractional part. -/
def numeralParts (g : List Char) : ℕ × ℕ :=
  let ip := g.takeWhile (fun d => d.isDigit)
  match g.drop ip.length with
  | '.' :: fr => (natOfDigits ip * 10 ^ fr.length + natOfDigits fr, 10 ^ fr.length)
  | _ => (natOfDigits ip, 1)

/-- Binary normalisation of a positive rational `a / b`: scale by powers of
two, tracking the exponent, until the significand `a / b` lies in
`[2^52, 2^53)`.  The value represented is invariantly `(a / b) * 2 ^ e`.
The fuel is always chosen large enough by the caller. -/
def floatNorm : ℕ → ℕ → ℕ → ℤ → ℕ × ℕ × ℤ
  | 0, a, b, e => (a, b, e)
  | f + 1, a, b, e =>
    if a < 2 ^ 52 * b then floatNorm f (2 * a) b (e - 1)
    else if 2 ^ 53 * b ≤ a then floatNorm f a (2 * b) (e + 1)
    else (a, b, e)

/-- CPython `int(float(q))` for a nonnegative rational `q = n / d`, `d ≥ 1`:
round `q` to the nearest binary64 value (ties to even), then truncate toward
zero.  `none` models the `OverflowError` raised by `int` when `float`
overflowed to infinity (rounded value at least `2^1024`). -/
def pyFloatTrunc (fuel n d : ℕ) : Option ℕ :=
  if n = 0 then some 0
  else
    match floatNorm fuel n d 0 with
    | (a, b, e) =>
      let m0 := a / b
      let r := a % b
      let m :=
        if 2 * r < b then m0
        else if b < 2 * r then m0 + 1
        else if m0 % 2 = 0 then m0 else m0 + 1
      if 2 ^ 1024 ≤ m * 2 ^ e.toNat then none
      else some (if 0 ≤ e then m * 2 ^ e.toNat else m / 2 ^ (-e).toNat)

/-- `int(float(String.mk g))` for a captured numeral `g`.  The fuel bound
`8 * g.length + 128` dominates the number of doublings `floatNorm` needs,
since the numeral's value lies in `[10 ^ (-g.length), 10 ^ g.length)`. -/
def pyIntFloat (g : List Char) : Option ℕ :=
  match numeralParts g with
  | (n, d) => pyFloatTrunc (8 * g.length + 128) n d

/-- `sys.maxsize` on a 64-bit CPython build: `2^63 - 1`. -/
def sysMaxsize : ℕ := 2 ^ 63 - 1

/-- `chapter_sort_key` (lines 22-29): anchored regex match; on success
`int(float(group 1))` (whose `OverflowError` is not caught — `none`); on
failure the sentinel `sys.maxsize`.  The `except ValueError` branch of the
source is unreachable because group 1 is always a well-formed numeral. -/
def chapter_sort_key (name : String) : Option ℕ :=
  match matchAt name.data with
  | some g => pyIntFloat g
  | none => some sysMaxsize

/-- Fuel-indexed embedding of the batching `while` loop (lines 228-254): as
long as chapters remain, take the next `B` of them as one batch (the loop's
`end_index = min(current + B - 1, N - 1)` makes the final batch shorter when
fewer than `B` remain) and continue after them.  The fuel only serves
structural termination; `batchChunks` supplies enough of it. -/
def chunkLoop (B : ℕ) : ℕ → List α → List (List α)
  | 0, _ => []
  | _ + 1, [] => []
  | f + 1, a :: l => (a :: l).take B :: chunkLoop B f ((a :: l).drop B)

/-- The batch partition of the sorted chapter list (lines 228-254).  The
source validates `batch_size ≥ 1` before reaching the loop (line 112). -/
def batchChunks (B : ℕ) (l : List α) : List (List α) :=
  chunkLoop B l.length l

/-- Folder name of one batch (lines 235-243): `re.search` the numeral in the
first and in the last chapter name of the batch and produce
`{manga_name}_{start_num}_{end_num}`.  `none` models the uncaught
`AttributeError` raised when `re.search(...)` returns `None` and `.group(1)`
is taken on it. -/
def batchRangeName (manga : String) (b : List String) : Option String :=
  match b.head? with
  | none => none
  | some first =>
    match b.getLast? with
    | none => none
    | some last =>
      match searchNum first, searchNum last with
      | some s, some e => some (manga ++ "_" ++ s ++ "_" ++ e)
      | _, _ => none

/-- Run an option-valued function over a list, stopping at the first
failure (the loop body crashes at the first batch whose numerals cannot be
extracted). -/
def optMapM (f : α → Option β) : List α → Option (List β)
  | [] => some []
  | a :: as =>
    match f a with
    | none => none
    | some b =>
      match optMapM f as with
      | none => none
      | some bs => some (b :: bs)

/-- The ordered list of batch folder names created by the rearrangement
stage; `none` models the crash of `batchRangeName`. -/
def batchFolderNames (manga : String) (B : ℕ) (chapters : List String) :
    Option (List String) :=
  optMapM (batchRangeName manga) (batchChunks B chapters)

/-- Outcome of one `subprocess.run` as seen by `run_command`: the executable
was absent (`FileNotFoundError`), or the process completed with a return
code and optionally captured stdout/stderr. -/
inductive RunResult where
  | notFound (cmd : String)
  | completed (returncode : ℕ) (stdout stderr : Option String)

/-- `run_command` (lines 32-47), used for the download invocation: a missing
executable or a non-zero return code (which `check=True` turns into
`CalledProcessError`) aborts with `sys.exit(1)` after printing diagnostics,
including the captured output when present.  The error value carries the
exit code and the printed lines. -/
def run_command : RunResult → Except (ℕ × List String) Unit
  | RunResult.notFound cmd => Except.error (1, ["Error: Command " ++ cmd ++ " not found."])
  | RunResult.completed rc out err =>
    if rc = 0 then Except.ok ()
    else
      Except.error (1,
        ["Error: Command failed with exit code " ++ Nat.repr rc ++ "."]
          ++ (match out with | some s => ["Stdout: " ++ s] | none => [])
          ++ (match err with | some s => ["Stderr: " ++ s] | none => []))

/-- Python `str.lower()` as used on the confirmation answer, modelled on
the character list (ASCII case mapping). -/
def lowerAscii (s : String) : String :=
  String.mk (s.data.map Char.toLower)

/-- What the `input()` call at line 146 produces: an answered line, or
end-of-input (`EOFError`). -/
inductive ConfirmInput where
  | answer (s : String)
  | eof

/-- The output-root confirmation (lines 144-163).  When the EPUB directory
exists: an answer whose lowercase form is `y` removes it and continues
(`ok true`); any other answer is `sys.exit(0)`; `EOFError` is
`sys.exit(1)`.  When it does not exist the stage just continues. -/
def cleanupStage (epubExists : Bool) (inp : ConfirmInput) : Except ℕ Bool :=
  if epubExists then
    match inp with
    | ConfirmInput.answer s =>
      if lowerAscii s = "y" then Except.ok true else Except.error 0
    | ConfirmInput.eof => Except.error 1
  else Except.ok false

/-- The conversion loop (lines 269-312) over the created batch folder names:
a folder that is no longer a directory is skipped without any output; for a
directory, the converter is invoked, and a non-zero return code only
appends a warning carrying the folder name and the captured stderr.
Returns the invoked folder names and the warnings, in loop order. -/
def convertBatches (isDir : String → Bool) (convRC : String → ℕ)
    (convStderr : String → String) : List String → List String × List (String × String)
  | [] => ([], [])
  | nm :: rest =>
    if isDir nm then
      (nm :: (convertBatches isDir convRC convStderr rest).1,
        if convRC nm != 0 then
          (nm, convStderr nm) :: (convertBatches isDir convRC convStderr rest).2
        else (convertBatches isDir convRC convStderr rest).2)
    else convertBatches isDir convRC convStderr rest

/-- The outside world of one run: directory states, the confirmation input,
the download process result, the discovered (already sorted) chapter names,
and the behaviour of the converter on each batch folder. -/
structure Env where
  epubExists : Bool
  confirm : ConfirmInput
  downloadResult : RunResult
  manga : String
  batchSize : ℕ
  chapters : List String
  isDir : String → Bool
  convRC : String → ℕ
  convStderr : String → String

/-- Observable outcome of one run of `main` past preflight. -/
structure RunReport where
  exitCode : ℕ
  downloadInvoked : Bool
  batchFoldersCreated : List String
  convertersInvoked : List String
  warnings : List (String × String)
  finalCleanupRan : Bool
  uncaughtException : Bool

/-- The controller sequence of `main` past preflight (lines 139-321):
cleanup confirmation, then the download via `run_command`, then early clean
exit on zero chapters (line 224), then batching with folder naming (a
naming failure is an uncaught exception, exit status 1 with no cleanup),
then the conversion loop, then the unconditional final cleanup and normal
termination with exit code 0. -/
def pipelineRun (env : Env) : RunReport :=
  match cleanupStage env.epubExists env.confirm with
  | Except.error c =>
    { exitCode := c, downloadInvoked := false, batchFoldersCreated := [],
      convertersInvoked := [], warnings := [], finalCleanupRan := false,
      uncaughtException := false }
  | Except.ok _ =>
    match run_command env.downloadResult with
    | Except.error (c, _) =>
      { exitCode := c, downloadInvoked := true, batchFoldersCreated := [],
        convertersInvoked := [], warnings := [], finalCleanupRan := false,
        uncaughtException := false }
    | Except.ok _ =>
      if env.chapters.isEmpty then
        { exitCode := 0, downloadInvoked := true, batchFoldersCreated := [],
          convertersInvoked := [], warnings := [], finalCleanupRan := false,
          uncaughtException := false }
      else
        match batchFolderNames env.manga env.batchSize env.chapters with
        | none =>
          { exitCode := 1, downloadInvoked := true, batchFoldersCreated := [],
            convertersInvoked := [], warnings := [], finalCleanupRan := false,
            uncaughtException := true }
        | some ns =>
          { exitCode := 0, downloadInvoked := true, batchFoldersCreated := ns,
            convertersInvoked := (convertBatches env.isDir env.convRC env.convStderr ns).1,
            warnings := (convertBatches env.isDir env.convRC env.convStderr ns).2,
            finalCleanupRan := true, uncaughtException := false }

/-- The 45 chapter names `c1` .. `c45` of the §8 scenario, in sorted order
(their keys `1` .. `45` are strictly increasing). -/
def chapters45 : List String :=
  (List.range 45).map (fun i => "c" ++ Nat.repr (i + 1))

/-- A concrete environment whose only chapter directory is named `cover`:
it passes the starts-with-`c` discovery filter, but no numeral can be
extracted from it when naming its batch. -/
def coverEnv : Env :=
  { epubExists := false, confirm := ConfirmInput.answer "",
    downloadResult := RunResult.completed 0 none none, manga := "MyManga",
    batchSize := 20, chapters := ["cover"], isDir := fun _ => true,
    convRC := fun _ => 0, convStderr := fun _ => "" }

/-- A concrete healthy environment: three chapters batched in pairs, where
the converter fails on the first batch folder only. -/
def demoEnv : Env :=
  { epubExists := false, confirm := ConfirmInput.answer "",
    downloadResult := RunResult.completed 0 none none, manga := "m",
    batchSize := 2, chapters := ["c1", "c2", "c3"], isDir := fun _ => true,
    convRC := fun nm => if nm = "m_1_2" then 1 else 0,
    convStderr := fun _ => "kcc failed" }

/-- A concrete environment where the output root exists and the user
answers `n` to the deletion prompt. -/
def declineEnv : Env :=
  { epubExists := true, confirm := ConfirmInput.answer "n",
    downloadResult := RunResult.completed 0 none none, manga := "m",
    batchSize := 2, chapters := ["c1"], isDir := fun _ => true,
    convRC := fun _ => 0, convStderr := fun _ => "" }

/-- A concrete environment where the output root exists and the deletion
prompt hits end-of-input. -/
def eofEnv : Env :=
  { epubExists := true, confirm := ConfirmInput.eof,
    downloadResult := RunResult.completed 0 none none, manga := "m",
    batchSize := 2, chapters := ["c1"], isDir := fun _ => true,
    convRC := fun _ => 0, convStderr := fun _ => "" }

/-- The fuel of `chunkLoop` is irrelevant as long as it dominates the list
length. -/
theorem chunkLoop_fuel {α : Type} (B : ℕ) (hB : 1 ≤ B) :
    ∀ f g (l : List α), l.length ≤ f → l.length ≤ g →
      chunkLoop B f l = chunkLoop B g l := by
  intro f
  induction f with
  | zero =>
    intro g l hf _
    have : l = [] := List.eq_nil_of_length_eq_zero (Nat.le_zero.mp hf)
    subst this
    cases g <;> rfl
  | succ f ih =>
    intro g l hf hg
    cases l with
    | nil => cases g <;> rfl
    | cons a l' =>
      cases g with
      | zero => simp at hg
      | succ g' =>
        show (a :: l').take B :: chunkLoop B f ((a :: l').drop B)
            = (a :: l').take B :: chunkLoop B g' ((a :: l').drop B)
        have hlen : ((a :: l').drop B).length = l'.length + 1 - B := by
          simp [List.length_drop]
        refine congrArg _ (ih g' ((a :: l').drop B) ?_ ?_) <;>
          simp only [hlen, List.length_cons] at * <;> omega

/-- Unfolding equation for `batchChunks` on a nonempty list. -/
theorem batchChunks_cons {α : Type} (B : ℕ) (hB : 1 ≤ B) (l : List α) (hl : l ≠ []) :
    batchChunks B l = l.take B :: batchChunks B (l.drop B) := by
  cases l with
  | nil => exact absurd rfl hl
  | cons a l' =>
    show (a :: l').take B :: chunkLoop B l'.length ((a :: l').drop B)
        = (a :: l').take B :: batchChunks B ((a :: l').drop B)
    refine congrArg _ (chunkLoop_fuel B hB _ _ _ ?_ le_rfl)
    simp only [List.length_drop, List.length_cons]
    omega

/-- The partition restores the original list when concatenated. -/
theorem batchChunks_flatten {α : Type} (B : ℕ) (hB : 1 ≤ B) (l : List α) :
    (batchChunks B l).flatten = l := by
  rcases eq_or_ne l [] with h | h
  · subst h; rfl
  · rw [batchChunks_cons B hB l h, List.flatten_cons,
      batchChunks_flatten B hB (l.drop B), List.take_append_drop]
termination_by l.length
decreasing_by
  simp only [List.length_drop]
  have := List.length_pos.mpr h
  omega

/-- The partition has exactly `ceil (length / B)` groups. -/
theorem batchChunks_length {α : Type} (B : ℕ) (hB : 1 ≤ B) (l : List α) :
    (batchChunks B l).length = (l.length + B - 1) / B := by
  rcases eq_or_ne l [] with h | h
  · subst h
    show 0 = (0 + B - 1) / B
    symm
    exact Nat.div_eq_of_lt (by omega)
  · rw [batchChunks_cons B hB l h]
    simp only [List.length_cons]
    rw [batchChunks_length B hB (l.drop B)]
    simp only [List.length_drop]
    have hpos : 0 < l.length := List.length_pos.mpr h
    rcases le_or_lt l.length B with hle | hlt
    · have h1 : l.length - B = 0 := by omega
      rw [h1]
      have h2 : (0 + B - 1) / B = 0 := Nat.div_eq_of_lt (by omega)
      rw [h2]
      exact (Nat.div_eq_of_lt_le (by omega) (by omega)).symm
    · have harg : l.length + B - 1 = (l.length - B + B - 1) + B := by omega
      rw [harg, Nat.add_div_right _ (by omega : 0 < B)]
termination_by l.length
decreasing_by
  simp only [List.length_drop]
  have := List.length_pos.mpr h
  omega

/-- Group `k` of the partition is the contiguous slice of the input that
starts at index `k * B` and has (at most) `B` elements. -/
theorem batchChunks_get {α : Type} (B : ℕ) (hB : 1 ≤ B) (l : List α) :
    ∀ k, ∀ hk : k < (batchChunks B l).length,
      (batchChunks B l).get ⟨k, hk⟩ = (l.drop (k * B)).take B := by
  intro k hk
  rcases eq_or_ne l [] with h | h
  · subst h; exact absurd hk (Nat.not_lt_zero k)
  · revert hk
    rw [batchChunks_cons B hB l h]
    intro hk
    cases k with
    | zero => simp
    | succ k' =>
      have hk' : k' < (batchChunks B (l.drop B)).length := by
        simp only [List.length_cons] at hk
        omega
      show (batchChunks B (l.drop B)).get ⟨k', hk'⟩ = (l.drop ((k' + 1) * B)).take B
      rw [batchChunks_get B hB (l.drop B) k' hk', List.drop_drop,
        (by ring : (k' + 1) * B = B + k' * B)]
termination_by l.length
decreasing_by
  simp only [List.length_drop]
  have := List.length_pos.mpr h
  omega

/-- Every group of the partition has between `1` and `B` members. -/
theorem batchChunks_sizes {α : Type} (B : ℕ) (hB : 1 ≤ B) (l : List α) :
    ∀ b ∈ batchChunks B l, 1 ≤ b.length ∧ b.length ≤ B := by
  intro b hb
  rcases eq_or_ne l [] with h | h
  · subst h; exact absurd hb (List.not_mem_nil b)
  · rw [batchChunks_cons B hB l h] at hb
    rcases List.mem_cons.mp hb with rfl | hb'
    · have hpos : 0 < l.length := List.length_pos.mpr h
      simp only [List.length_take]
      omega
    · exact batchChunks_sizes B hB (l.drop B) b hb'
termination_by l.length
decreasing_by
  simp only [List.length_drop]
  have := List.length_pos.mpr h
  omega

/-- C1: for every ordered chapter list of length at least 1 and every batch
size `B ≥ 1`, the batch partitioner produces exactly `ceil (N / B)` batches;
batch `k` is the contiguous slice of the sorted order starting at index
`k * B` of length `min ((k + 1) * B, N) - k * B`; every batch has between 1
and `B` members; and concatenating the batches in order restores the
chapter list exactly, so every chapter lies in exactly one batch. -/
theorem C1_batch_partition {α : Type} (B : ℕ) (l : List α)
    (hB : 1 ≤ B) (_hN : 1 ≤ l.length) :
    (batchChunks B l).length = (l.length + B - 1) / B ∧
    (∀ k, ∀ hk : k < (batchChunks B l).length,
      (batchChunks B l).get ⟨k, hk⟩ = (l.drop (k * B)).take B) ∧
    (∀ b ∈ batchChunks B l, 1 ≤ b.length ∧ b.length ≤ B) ∧
    (batchChunks B l).flatten = l :=
  ⟨batchChunks_length B hB l, batchChunks_get B hB l,
    batchChunks_sizes B hB l, batchChunks_flatten B hB l⟩

/-- Witness for C1 at the concrete input `B = 2`, chapters `[0, 1, 2]`. -/
theorem C1_batch_partition_witness :
    1 ≤ 2 ∧ 1 ≤ ([0, 1, 2] : List ℕ).length ∧
    ((batchChunks 2 ([0, 1, 2] : List ℕ)).length
        = (([0, 1, 2] : List ℕ).length + 2 - 1) / 2 ∧
      (∀ k, ∀ hk : k < (batchChunks 2 ([0, 1, 2] : List ℕ)).length,
        (batchChunks 2 ([0, 1, 2] : List ℕ)).get ⟨k, hk⟩
          = (([0, 1, 2] : List ℕ).drop (k * 2)).take 2) ∧
      (∀ b ∈ batchChunks 2 ([0, 1, 2] : List ℕ), 1 ≤ b.length ∧ b.length ≤ 2) ∧
      (batchChunks 2 ([0, 1, 2] : List ℕ)).flatten = [0, 1, 2]) :=
  ⟨by decide, by decide, C1_batch_partition 2 [0, 1, 2] (by decide) (by decide)⟩

/-- `takeWhile` of an append keeps exactly the left part when every left
element satisfies the predicate and the first right element (if any) does
not. -/
theorem takeWhile_append_of_head {α : Type} (p : α → Bool) (ds sfx : List α)
    (hds : ∀ c ∈ ds, p c = true)
    (hs : ∀ c, sfx.head? = some c → p c = false) :
    (ds ++ sfx).takeWhile p = ds := by
  induction ds with
  | nil =>
    cases sfx with
    | nil => rfl
    | cons c r => simp [List.takeWhile_cons, hs c rfl]
  | cons a ds' ih =>
    have ha : p a = true := hds a (by simp)
    simp only [List.cons_append, List.takeWhile_cons, ha, if_true]
    rw [ih (fun c hc => hds c (by simp [hc]))]

/-- The anchored regex on a name made of the (case-sensitive here) `c`
prefix, a nonempty digit run, and a suffix that opens with neither a digit
nor a dot, captures exactly the digit run, whatever the suffix is. -/
theorem matchAt_digits (ds sfx : List Char) (hne : ds ≠ [])
    (hds : ∀ c ∈ ds, c.isDigit = true)
    (hs : ∀ c, sfx.head? = some c → c.isDigit = false ∧ c ≠ '.') :
    matchAt ('c' :: (ds ++ sfx)) = some ds := by
  have htw : (ds ++ sfx).takeWhile (fun d => d.isDigit) = ds :=
    takeWhile_append_of_head _ ds sfx hds (fun c hc => (hs c hc).1)
  simp only [matchAt, if_pos (Or.inl rfl), htw]
  cases ds with
  | nil => exact absurd rfl hne
  | cons a ds' =>
    rw [List.drop_left]
    cases sfx with
    | nil => rfl
    | cons c r =>
      have hc := hs c rfl
      simp only [true_or, if_true]
      split
      next heq =>
        exact absurd (by injection heq) hc.2
      next => rfl

/-- The field of a literal `String.mk` is its character list. -/
theorem data_mk (l : List Char) : (String.mk l).data = l := rfl

/-- C2 counterexample: the name `c0.99999999999999999` matches the chapter
pattern with numeral `0.99999999999999999`, whose integer part is `0`, yet
the parser returns key `1`: CPython's `float` rounds the numeral up to
`1.0` before `int` truncates, so the fractional part is not always
truncated toward zero. -/
theorem C2_truncation_counterexample :
    matchAt "c0.99999999999999999".data = some "0.99999999999999999".data ∧
    chapter_sort_key "c0.99999999999999999" = some 1 ∧
    chapter_sort_key "c0.99999999999999999" ≠ some 0 :=
  ⟨by decide, by decide, by decide⟩

/-- C2 amended: on the spec's example names the key is the integer part of
the matched numeral (`c7 ↦ 7`, `c7.9 ↦ 7`, `C10 ↦ 10`, `c12.5 ↦ 12`,
`c12.9 ↦ 12`); in general a matching name's key is `int(float(numeral))`,
the numeral rounded to the nearest binary64 value and then truncated (which
can exceed the exact integer part); every non-matching name receives the
sentinel `sys.maxsize`, and hence sorts strictly after every matching entry
whose key is below the sentinel. -/
theorem C2_chapter_key_semantics :
    chapter_sort_key "c7" = some 7 ∧
    chapter_sort_key "c7.9" = some 7 ∧
    chapter_sort_key "C10" = some 10 ∧
    chapter_sort_key "c12.5" = some 12 ∧
    chapter_sort_key "c12.9" = some 12 ∧
    (∀ s : String, matchAt s.data = none → chapter_sort_key s = some sysMaxsize) ∧
    (∀ (s : String) (g : List Char), matchAt s.data = some g →
      chapter_sort_key s = pyIntFloat g) ∧
    (∀ (s t : String) (k : ℕ), chapter_sort_key s = some k → k < sysMaxsize →
      matchAt t.data = none → ∃ kt, chapter_sort_key t = some kt ∧ k < kt) := by
  refine ⟨by decide, by decide, by decide, by decide, by decide, ?_, ?_, ?_⟩
  · intro s h
    simp [chapter_sort_key, h]
  · intro s g h
    simp [chapter_sort_key, h]
  · intro s t k _ hk ht
    exact ⟨sysMaxsize, by simp [chapter_sort_key, ht], hk⟩

/-- Witness for C2 at the non-matching name `nope` and the matching name
`c7`. -/
theorem C2_chapter_key_semantics_witness :
    (matchAt "nope".data = none ∧ chapter_sort_key "nope" = some sysMaxsize) ∧
    (chapter_sort_key "c7" = some 7 ∧ (7 : ℕ) < sysMaxsize ∧
      matchAt "nope".data = none ∧
      ∃ kt, chapter_sort_key "nope" = some kt ∧ 7 < kt) :=
  ⟨⟨by decide, C2_chapter_key_semantics.2.2.2.2.2.1 "nope" (by decide)⟩,
    by decide, by decide, by decide,
    C2_chapter_key_semantics.2.2.2.2.2.2.2 "c7" "nope" 7 (by decide) (by decide)
      (by decide)⟩

/-- C3 counterexample: the leading `c` is not optional.  The name `12`
begins directly with a number, yet the parser does not return `12`: it
falls through to the sentinel. -/
theorem C3_optional_prefix_counterexample :
    chapter_sort_key "12" = some sysMaxsize ∧
    chapter_sort_key "12" ≠ some 12 ∧
    chapter_sort_key "12.5" = some sysMaxsize :=
  ⟨by decide, by decide, by decide⟩

/-- C3 amended: the leading `c` literal is case-insensitive but required:
every name that begins with a digit fails the pattern and receives the
malformed-name sentinel, while `c12` and `C12` both yield key `12`. -/
theorem C3_c_prefix_required :
    (∀ (c : Char) (cs : List Char), c.isDigit = true →
      chapter_sort_key (String.mk (c :: cs)) = some sysMaxsize) ∧
    chapter_sort_key "c12" = some 12 ∧
    chapter_sort_key "C12" = some 12 := by
  refine ⟨?_, by decide, by decide⟩
  intro c cs h
  have hcc : ¬(c = 'c' ∨ c = 'C') := by
    rintro (rfl | rfl) <;> exact absurd h (by decide)
  simp [chapter_sort_key, data_mk, matchAt, hcc]

/-- Witness for C3 at the digit-initial name `12`. -/
theorem C3_c_prefix_required_witness :
    Char.isDigit '1' = true ∧
    chapter_sort_key (String.mk ('1' :: ['2'])) = some sysMaxsize :=
  ⟨by decide, C3_c_prefix_required.1 '1' ['2'] (by decide)⟩

/-- C4 (code bug in the source): the parser is not total.  The name made of
`c` followed by 309 nines matches the pattern, `float` overflows the
numeral to infinity, and `int(inf)` raises `OverflowError`, which the
`except ValueError` handler does not catch — the call crashes (`none`)
instead of returning the sentinel. -/
theorem C4_totality_code_bug :
    matchAt (String.mk ('c' :: List.replicate 309 '9')).data
        = some (List.replicate 309 '9') ∧
    chapter_sort_key (String.mk ('c' :: List.replicate 309 '9')) = none := by
  constructor
  · show matchAt ('c' :: List.replicate 309 '9') = some (List.replicate 309 '9')
    have h := matchAt_digits (List.replicate 309 '9') [] (by simp)
      (fun c hc => by rw [List.eq_of_mem_replicate hc]; decide)
      (fun c hcontra => by simp at hcontra)
    simpa using h
  · decide

/-- C9 counterexample: for the name `c9007199254740993xyz` the leading
numeral is `9007199254740993`, whose integer part is `9007199254740993`,
but the parser returns `9007199254740992`: the numeral is first rounded to
the nearest binary64 value. -/
theorem C9_anchoring_counterexample :
    matchAt "c9007199254740993xyz".data = some "9007199254740993".data ∧
    chapter_sort_key "c9007199254740993xyz" = some 9007199254740992 ∧
    chapter_sort_key "c9007199254740993xyz" ≠ some 9007199254740993 :=
  ⟨by decide, by decide, by decide⟩

/-- C9 amended: the pattern is anchored at the start of the name and
everything after the matched numeral is ignored: appending any suffix that
does not extend the numeral (its first character is neither a digit nor a
dot) leaves the key unchanged, and `c12abc`, `c12.5.7` and `c12 extra` all
yield key `12` — though for very long numerals that key is the rounded
`int(float(...))` value, not always the exact integer part. -/
theorem C9_suffix_ignored :
    (∀ ds sfx : List Char, ds ≠ [] → (∀ c ∈ ds, c.isDigit = true) →
      (∀ c, sfx.head? = some c → c.isDigit = false ∧ c ≠ '.') →
      chapter_sort_key (String.mk ('c' :: (ds ++ sfx)))
        = chapter_sort_key (String.mk ('c' :: ds))) ∧
    chapter_sort_key "c12abc" = some 12 ∧
    chapter_sort_key "c12.5.7" = some 12 ∧
    chapter_sort_key "c12 extra" = some 12 := by
  refine ⟨?_, by decide, by decide, by decide⟩
  intro ds sfx hne hds hs
  have h1 : matchAt ('c' :: (ds ++ sfx)) = some ds := matchAt_digits ds sfx hne hds hs
  have h2 : matchAt ('c' :: ds) = some ds := by
    have h := matchAt_digits ds [] hne hds (fun c hcontra => by simp at hcontra)
    simpa using h
  simp [chapter_sort_key, data_mk, h1, h2]

/-- Witness for C9 at digits `1` and suffix `x`. -/
theorem C9_suffix_ignored_witness :
    (['1'] : List Char) ≠ [] ∧ (∀ c ∈ (['1'] : List Char), c.isDigit = true) ∧
    (∀ c : Char, (['x'] : List Char).head? = some c → c.isDigit = false ∧ c ≠ '.') ∧
    chapter_sort_key (String.mk ('c' :: (['1'] ++ ['x'])))
      = chapter_sort_key (String.mk ('c' :: ['1'])) :=
  ⟨by decide, by decide,
    fun c hcx => by
      have hx : 'x' = c := by injection hcx
      rw [← hx]
      exact ⟨by decide, by decide⟩,
    C9_suffix_ignored.1 ['1'] ['x'] (by decide) (by decide)
      (fun c hcx => by
        have hx : 'x' = c := by injection hcx
        rw [← hx]
        exact ⟨by decide, by decide⟩)⟩

/-- A successful `optMapM` preserves length. -/
theorem optMapM_length {α β : Type} (f : α → Option β) :
    ∀ (l : List α) (ys : List β), optMapM f l = some ys → ys.length = l.length := by
  intro l
  induction l with
  | nil =>
    intro ys h
    simp only [optMapM, Option.some.injEq] at h
    rw [← h]
    rfl
  | cons a as ih =>
    intro ys h
    cases hfa : f a with
    | none => simp [optMapM, hfa] at h
    | some b =>
      cases hrec : optMapM f as with
      | none => simp [optMapM, hfa, hrec] at h
      | some bs =>
        simp only [optMapM, hfa, hrec, Option.some.injEq] at h
        rw [← h]
        simp [ih bs hrec]

/-- A successful `optMapM` is pointwise: entry `k` of the output comes from
`f` on entry `k` of the input. -/
theorem optMapM_get {α β : Type} (f : α → Option β) :
    ∀ (l : List α) (ys : List β), optMapM f l = some ys →
      ∀ k (hk : k < l.length) (hk' : k < ys.length),
        f (l.get ⟨k, hk⟩) = some (ys.get ⟨k, hk'⟩) := by
  intro l
  induction l with
  | nil =>
    intro ys h k hk hk'
    exact absurd hk (Nat.not_lt_zero k)
  | cons a as ih =>
    intro ys h k hk hk'
    cases hfa : f a with
    | none => simp [optMapM, hfa] at h
    | some b =>
      cases hrec : optMapM f as with
      | none => simp [optMapM, hfa, hrec] at h
      | some bs =>
        simp only [optMapM, hfa, hrec, Option.some.injEq] at h
        subst h
        cases k with
        | zero => simpa using hfa
        | succ k' =>
          exact ih bs hrec k' (Nat.lt_of_succ_lt_succ hk) (Nat.lt_of_succ_lt_succ hk')

/-- A batch folder name can only arise from successful numeral extraction
on the first and last chapter names of the batch, in the fixed
`{manga}_{start}_{end}` shape. -/
theorem batchRangeName_eq (manga : String) (b : List String) (nm : String)
    (h : batchRangeName manga b = some nm) :
    ∃ first last s e, b.head? = some first ∧ b.getLast? = some last ∧
      searchNum first = some s ∧ searchNum last = some e ∧
      nm = manga ++ "_" ++ s ++ "_" ++ e := by
  cases hh : b.head? with
  | none => simp [batchRangeName, hh] at h
  | some first =>
    cases hl : b.getLast? with
    | none => simp [batchRangeName, hh, hl] at h
    | some last =>
      cases hsf : searchNum first with
      | none => simp [batchRangeName, hh, hl, hsf] at h
      | some s =>
        cases hse : searchNum last with
        | none => simp [batchRangeName, hh, hl, hsf, hse] at h
        | some e =>
          simp only [batchRangeName, hh, hl, hsf, hse, Option.some.injEq] at h
          exact ⟨first, last, s, e, rfl, rfl, hsf, hse, h.symm⟩

/-- C5: the §8 scenario — 45 chapters `c1` .. `c45` with batch size 20
yield exactly the three folders `m_1_20`, `m_21_40`, `m_41_45` — and in
general every created folder name is `{manga}_{start}_{end}` with the two
numerals re-extracted literally (by the same pattern as the sort key, in
search form) from the first and the last chapter directory names of the
batch, one folder per batch in order. -/
theorem C5_batch_naming :
    batchFolderNames "m" 20 chapters45 = some ["m_1_20", "m_21_40", "m_41_45"] ∧
    (∀ (manga : String) (b : List String) (nm : String),
      batchRangeName manga b = some nm →
      ∃ first last s e, b.head? = some first ∧ b.getLast? = some last ∧
        searchNum first = some s ∧ searchNum last = some e ∧
        nm = manga ++ "_" ++ s ++ "_" ++ e) ∧
    (∀ (manga : String) (B : ℕ) (l ns : List String),
      batchFolderNames manga B l = some ns →
      ns.length = (batchChunks B l).length ∧
      ∀ k (hk : k < (batchChunks B l).length) (hk' : k < ns.length),
        batchRangeName manga ((batchChunks B l).get ⟨k, hk⟩)
          = some (ns.get ⟨k, hk'⟩)) := by
  refine ⟨by decide, batchRangeName_eq, ?_⟩
  intro manga B l ns h
  exact ⟨optMapM_length (batchRangeName manga) (batchChunks B l) ns h,
    optMapM_get (batchRangeName manga) (batchChunks B l) ns h⟩

/-- Witness for C5 at three chapters batched in pairs. -/
theorem C5_batch_naming_witness :
    batchRangeName "m" ["c1", "c2"] = some "m_1_2" ∧
    (∃ first last s e, (["c1", "c2"] : List String).head? = some first ∧
      (["c1", "c2"] : List String).getLast? = some last ∧
      searchNum first = some s ∧ searchNum last = some e ∧
      "m_1_2" = "m" ++ "_" ++ s ++ "_" ++ e) ∧
    batchFolderNames "m" 2 ["c1", "c2", "c3"] = some ["m_1_2", "m_3_3"] ∧
    ((["m_1_2", "m_3_3"] : List String).length
        = (batchChunks 2 (["c1", "c2", "c3"] : List String)).length ∧
      ∀ k (hk : k < (batchChunks 2 (["c1", "c2", "c3"] : List String)).length)
        (hk' : k < (["m_1_2", "m_3_3"] : List String).length),
        batchRangeName "m" ((batchChunks 2 (["c1", "c2", "c3"] : List String)).get ⟨k, hk⟩)
          = some ((["m_1_2", "m_3_3"] : List String).get ⟨k, hk'⟩)) :=
  ⟨by decide,
    C5_batch_naming.2.1 "m" ["c1", "c2"] "m_1_2" (by decide),
    by decide,
    C5_batch_naming.2.2 "m" 2 ["c1", "c2", "c3"] ["m_1_2", "m_3_3"] (by decide)⟩

/-- C6 (code bug in the source): a chapter directory named `cover` passes
the starts-with-`c` discovery filter, but at batch-naming time the numeral
extraction finds no match and `.group(1)` is taken on `None`: the run dies
with an uncaught `AttributeError` (interpreter exit status 1, no final
cleanup, no handled error report), rather than a reported, handled fatal
internal error. -/
theorem C6_unguarded_extraction_crash :
    searchNum "cover" = none ∧
    batchRangeName "MyManga" ["cover"] = none ∧
    batchFolderNames "MyManga" 20 ["cover"] = none ∧
    (pipelineRun coverEnv).uncaughtException = true ∧
    (pipelineRun coverEnv).exitCode = 1 ∧
    (pipelineRun coverEnv).finalCleanupRan = false :=
  ⟨by decide, by decide, by decide, by decide, by decide, by decide⟩

/-- The conversion loop invokes the converter exactly on the still-directory
folders, in order, whatever the return codes are. -/
theorem convertBatches_fst (d : String → Bool) (rc : String → ℕ)
    (eo : String → String) :
    ∀ ns : List String, (convertBatches d rc eo ns).1 = ns.filter d := by
  intro ns
  induction ns with
  | nil => rfl
  | cons nm rest ih =>
    cases hd : d nm <;> simp [convertBatches, List.filter_cons, hd, ih]

/-- The conversion loop warns exactly on the directory folders whose
conversion exits non-zero, pairing each with its captured stderr. -/
theorem convertBatches_snd (d : String → Bool) (rc : String → ℕ)
    (eo : String → String) :
    ∀ ns : List String, (convertBatches d rc eo ns).2
      = (ns.filter (fun nm => d nm && (rc nm != 0))).map (fun nm => (nm, eo nm)) := by
  intro ns
  induction ns with
  | nil => rfl
  | cons nm rest ih =>
    cases hd : d nm
    · simp [convertBatches, List.filter_cons, hd, ih]
    · cases hrc : rc nm != 0 <;>
        simp [convertBatches, List.filter_cons, hd, hrc, ih]

/-- C7: the two external-process stages have asymmetric failure policies.
Download side: a missing executable or any non-zero exit makes
`run_command` abort the run with exit code 1, surfacing the captured stdout
and stderr when they are present.  Conversion side: whatever the converter
return codes are, the pipeline invokes the converter on every remaining
batch folder that is a directory, only records warnings (with captured
stderr) for the failing ones, still runs final cleanup, and exits 0. -/
theorem C7_failure_policy :
    (∀ cmd : String, ∃ msgs,
      run_command (RunResult.notFound cmd) = Except.error (1, msgs)) ∧
    (∀ (rc : ℕ) (out err : Option String), rc ≠ 0 →
      ∃ msgs, run_command (RunResult.completed rc out err) = Except.error (1, msgs) ∧
        (∀ s, out = some s → ("Stdout: " ++ s) ∈ msgs) ∧
        (∀ s, err = some s → ("Stderr: " ++ s) ∈ msgs)) ∧
    (∀ (env : Env) (x : Bool) (ns : List String),
      cleanupStage env.epubExists env.confirm = Except.ok x →
      run_command env.downloadResult = Except.ok () →
      env.chapters ≠ [] →
      batchFolderNames env.manga env.batchSize env.chapters = some ns →
      (pipelineRun env).exitCode = 0 ∧
      (pipelineRun env).finalCleanupRan = true ∧
      (pipelineRun env).convertersInvoked = ns.filter env.isDir ∧
      (pipelineRun env).warnings
        = (ns.filter (fun nm => env.isDir nm && (env.convRC nm != 0))).map
            (fun nm => (nm, env.convStderr nm))) := by
  refine ⟨fun cmd => ⟨_, rfl⟩, ?_, ?_⟩
  · intro rc out err h
    refine ⟨["Error: Command failed with exit code " ++ Nat.repr rc ++ "."]
        ++ (match out with | some s => ["Stdout: " ++ s] | none => [])
        ++ (match err with | some s => ["Stderr: " ++ s] | none => []),
      by simp [run_command, h], ?_, ?_⟩
    · intro s hs
      subst hs
      simp
    · intro s hs
      subst hs
      simp
  · intro env x ns h1 h2 h3 h4
    have h3' : env.chapters.isEmpty = false := List.isEmpty_eq_false.mpr h3
    simp [pipelineRun, h1, h2, h3', h4, convertBatches_fst, convertBatches_snd]

/-- Witness for C7: the absent downloader aborts; a failed download with
captured stderr aborts surfacing it; in `demoEnv` the converter fails on
batch `m_1_2` yet both batches are processed, the failure only warns, final
cleanup runs and the exit code is 0. -/
theorem C7_failure_policy_witness :
    (∃ msgs, run_command (RunResult.notFound "gallery-dl") = Except.error (1, msgs)) ∧
    ((2 : ℕ) ≠ 0 ∧
      ∃ msgs, run_command (RunResult.completed 2 none (some "boom"))
          = Except.error (1, msgs) ∧
        (∀ s, (none : Option String) = some s → ("Stdout: " ++ s) ∈ msgs) ∧
        (∀ s, (some "boom" : Option String) = some s → ("Stderr: " ++ s) ∈ msgs)) ∧
    (cleanupStage demoEnv.epubExists demoEnv.confirm = Except.ok false ∧
      run_command demoEnv.downloadResult = Except.ok () ∧
      demoEnv.chapters ≠ [] ∧
      batchFolderNames demoEnv.manga demoEnv.batchSize demoEnv.chapters
        = some ["m_1_2", "m_3_3"] ∧
      ((pipelineRun demoEnv).exitCode = 0 ∧
        (pipelineRun demoEnv).finalCleanupRan = true ∧
        (pipelineRun demoEnv).convertersInvoked
          = (["m_1_2", "m_3_3"] : List String).filter demoEnv.isDir ∧
        (pipelineRun demoEnv).warnings
          = ((["m_1_2", "m_3_3"] : List String).filter
              (fun nm => demoEnv.isDir nm && (demoEnv.convRC nm != 0))).map
                (fun nm => (nm, demoEnv.convStderr nm)))) :=
  ⟨C7_failure_policy.1 "gallery-dl",
    ⟨by decide, C7_failure_policy.2.1 2 none (some "boom") (by decide)⟩,
    rfl, rfl, by decide, by decide,
    C7_failure_policy.2.2 demoEnv false ["m_1_2", "m_3_3"] rfl rfl (by decide)
      (by decide)⟩

/-- C8: when the output root already exists, declining the deletion prompt
(any answer whose lowercase form is not `y`) ends the run with exit code 0
before any download, batching or conversion; end-of-input at the prompt
instead aborts with exit code 1, again before any download. -/
theorem C8_cleanup_confirmation :
    (∀ (env : Env) (s : String), env.epubExists = true →
      env.confirm = ConfirmInput.answer s → lowerAscii s ≠ "y" →
      (pipelineRun env).exitCode = 0 ∧
      (pipelineRun env).downloadInvoked = false ∧
      (pipelineRun env).batchFoldersCreated = [] ∧
      (pipelineRun env).convertersInvoked = []) ∧
    (∀ env : Env, env.epubExists = true → env.confirm = ConfirmInput.eof →
      (pipelineRun env).exitCode = 1 ∧
      (pipelineRun env).downloadInvoked = false ∧
      (pipelineRun env).convertersInvoked = []) := by
  constructor
  · intro env s h1 h2 h3
    have hcl : cleanupStage env.epubExists env.confirm = Except.error 0 := by
      rw [h1, h2]
      simp [cleanupStage, h3]
    simp [pipelineRun, hcl]
  · intro env h1 h2
    have hcl : cleanupStage env.epubExists env.confirm = Except.error 1 := by
      rw [h1, h2]
      simp [cleanupStage]
    simp [pipelineRun, hcl]

/-- Witness for C8 at the concrete declining answer `n` and at
end-of-input. -/
theorem C8_cleanup_confirmation_witness :
    (declineEnv.epubExists = true ∧ declineEnv.confirm = ConfirmInput.answer "n" ∧
      lowerAscii "n" ≠ "y" ∧
      ((pipelineRun declineEnv).exitCode = 0 ∧
        (pipelineRun declineEnv).downloadInvoked = false ∧
        (pipelineRun declineEnv).batchFoldersCreated = [] ∧
        (pipelineRun declineEnv).convertersInvoked = [])) ∧
    (eofEnv.epubExists = true ∧ eofEnv.confirm = ConfirmInput.eof ∧
      ((pipelineRun eofEnv).exitCode = 1 ∧
        (pipelineRun eofEnv).downloadInvoked = false ∧
        (pipelineRun eofEnv).convertersInvoked = [])) :=
  ⟨⟨rfl, rfl, by decide,
    C8_cleanup_confirmation.1 declineEnv "n" rfl rfl (by decide)⟩,
    ⟨rfl, rfl, C8_cleanup_confirmation.2 eofEnv rfl rfl⟩⟩

/-- C10: a created batch folder that is no longer a directory when the
conversion loop reaches it is skipped silently — no converter invocation
and no warning for it — and the loop's outcome on the remaining folders is
exactly as if the entry were absent. -/
theorem C10_nondir_skipped :
    ∀ (isDir : String → Bool) (convRC : String → ℕ) (convStderr : String → String)
      (nm : String) (rest : List String), isDir nm = false →
      convertBatches isDir convRC convStderr (nm :: rest)
        = convertBatches isDir convRC convStderr rest := by
  intro d rc eo nm rest h
  simp [convertBatches, h]

/-- Witness for C10 at a single vanished folder. -/
theorem C10_nondir_skipped_witness :
    (fun _ : String => false) "m_1_2" = false ∧
    convertBatches (fun _ : String => false) (fun _ => 0) (fun _ => "") ["m_1_2"]
      = convertBatches (fun _ : String => false) (fun _ => 0) (fun _ => "") [] :=
  ⟨rfl, C10_nondir_skipped (fun _ => false) (fun _ => 0) (fun _ => "") "m_1_2" [] rfl⟩
